import Mathlib

/-!
Verification of the escape-explorer pipeline (src/escapeexplorer/main.py).

The program is embedded shallowly: Python strings become `List Char`
(`PyStr`), and the Python string primitives used by the source
(`split`, `join`, `replace`, `strip`/`lstrip`/`rstrip` with a character
set, substring containment via the `in` operator) are modelled by
executable Lean functions with the same semantics.  Fallible Python
operations (list indexing that can raise `IndexError`, the
`AttributeError` raised by `parse_terror_level`, the `AssertionError`
raised by `find_room`) are modelled with `Except PipelineError`.
-/

namespace EscapeExplorer

/-- Python strings as lists of unicode scalar values. -/
abbrev PyStr := List Char

/-! ### Python string primitives -/

/-- Python `needle in hay`: substring containment. -/
def containsSub (hay needle : PyStr) : Bool :=
  hay.tails.any (fun t => needle.isPrefixOf t)

/-- Worker for `pySplit`, structurally recursive on a fuel argument so that
concrete instances evaluate inside the kernel.  Scans left to right for the
first occurrence of `sep`, mirroring CPython `str.split` with a non-empty
separator. -/
def splitGo (sep : PyStr) : Nat → PyStr → List PyStr
  | _, [] => [[]]
  | 0, s => [s]
  | fuel + 1, c :: cs =>
    if sep ≠ [] ∧ sep.isPrefixOf (c :: cs) = true then
      [] :: splitGo sep fuel (cs.drop (sep.length - 1))
    else
      match splitGo sep fuel cs with
      | [] => [[c]]
      | p :: ps => (c :: p) :: ps

/-- Python `s.split(sep)` for a non-empty separator. -/
def pySplit (sep s : PyStr) : List PyStr :=
  splitGo sep s.length s

/-- Python `sep.join(parts)`. -/
def pyJoin (sep : PyStr) : List PyStr → PyStr
  | [] => []
  | [x] => x
  | x :: y :: ys => x ++ sep ++ pyJoin sep (y :: ys)

/-- Python `s.replace(pat, rep)`.  For a non-empty pattern this replaces
non-overlapping occurrences left to right, which coincides with
`rep.join(s.split(pat))`; for the empty pattern CPython inserts `rep`
between every character and at both ends. -/
def pyReplace (s pat rep : PyStr) : PyStr :=
  if pat = [] then rep ++ s.flatMap (fun c => c :: rep)
  else pyJoin rep (pySplit pat s)

/-- Membership of a character in a strip set. -/
def charIn (c : Char) (set : PyStr) : Bool :=
  set.any (fun d => d == c)

/-- Python `s.lstrip(set)`: the argument is a character set. -/
def pyLstrip (s set : PyStr) : PyStr :=
  s.dropWhile (fun c => charIn c set)

/-- Python `s.rstrip(set)`. -/
def pyRstrip (s set : PyStr) : PyStr :=
  (s.reverse.dropWhile (fun c => charIn c set)).reverse

/-- Python `s.strip(set)`. -/
def pyStrip (s set : PyStr) : PyStr :=
  pyRstrip (pyLstrip s set) set

/-- Python `l.index(x)` (only used where `x` is an element of `l`). -/
def pyIndex [BEq α] (l : List α) (x : α) : Nat :=
  l.findIdx (fun y => y == x)

/-! ### Data model (the dataclasses and enum of main.py)

`Phase1Room.nominations` and `EscapeRoom.phase1_nominations` are annotated
`int` in the source, but the value actually stored is
`line.split(" ")[-2].strip("()")`, a `str`; the embedding records the
runtime type. -/

/-- The `TerrorLevel` enum. -/
inductive TerrorLevel
  | NONE
  | SPOOKY
  | PASSIVELY_SCARY
  | ACTIVELY_SCARY
deriving DecidableEq, Repr

/-- The `Phase1Room` dataclass (one decoded terse-listing line). -/
structure Phase1Room where
  name : PyStr
  nominations : PyStr
  new : Bool
  terror_level : TerrorLevel
  languages : List String
deriving DecidableEq, Repr

/-- The `Phase2Room` dataclass (one tabular ranking row). -/
structure Phase2Room where
  rank : PyStr
  name : PyStr
  score : PyStr
  players : PyStr
  coverage : PyStr
  comps : PyStr
  abstains : PyStr
  last_years_rank : Option PyStr
deriving DecidableEq, Repr

/-- The `EscapeRoom` dataclass (one merged output record). -/
structure EscapeRoom where
  room_name_english : PyStr
  room_name_original : Option PyStr
  company_name : PyStr
  location : PyStr
  languages : List String
  terror_level : TerrorLevel
  phase1_nominations : PyStr
  phase2_rank : PyStr
deriving DecidableEq, Repr

/-- The unhandled exceptions the pipeline can raise:
`IndexError` (list index out of range), the `AttributeError` raised by
`parse_terror_level` (carrying its message), and the `AssertionError`
raised by `find_room` (whose message reports the candidate count and the
queried name and company). -/
inductive PipelineError
  | indexError
  | decodeError (msg : PyStr)
  | correlation (found : Nat) (english company : PyStr)
deriving DecidableEq, Repr

/-! ### The annotated-line decoder (read_phase1) -/

/-- The rating markers checked by `parse_terror_level`, in source order. -/
def sunMarker : PyStr := "☀".data
def ghostMarker : PyStr := "👻".data
def flashlightMarker : PyStr := "🔦".data
def screamMarker : PyStr := "😱".data

/-- The novelty marker. -/
def newMarker : PyStr := "🆕".data

/-- Message of the `AttributeError` raised by `parse_terror_level`. -/
def terrorErrMsg (line : PyStr) : PyStr :=
  "Couldn't find a terror level in '".data ++ line ++ "'".data

/-- `read_phase1.parse_terror_level`: first rating marker found in the
fixed order sun, ghost, flashlight, scream; `AttributeError` when none
occurs in the line. -/
def parse_terror_level (line : PyStr) : Except PipelineError TerrorLevel :=
  if containsSub line sunMarker then .ok .NONE
  else if containsSub line ghostMarker then .ok .SPOOKY
  else if containsSub line flashlightMarker then .ok .PASSIVELY_SCARY
  else if containsSub line screamMarker then .ok .ACTIVELY_SCARY
  else .error (.decodeError (terrorErrMsg line))

/-- The language-marker table of `read_phase1.parse_languages`, in source
order: each entry is checked independently by substring containment. -/
def languageMarkers : List (PyStr × String) :=
  [ ("🇬🇧".data, "English")
  , ("EU".data, "Basque")
  , ("🇧🇬".data, "Bulgarian")
  , ("CA".data, "Catalan")
  , ("🇭🇷".data, "Croatian")
  , ("🇨🇿".data, "Czech")
  , ("🇩🇰".data, "Danish")
  , ("🇳🇱".data, "Dutch")
  , ("🇪🇪".data, "Estonian")
  , ("🇫🇮".data, "Finnish")
  , ("🇫🇷".data, "French")
  , ("🇩🇪".data, "German")
  , ("🇬🇷".data, "Greek")
  , ("🇮🇱".data, "Hebrew")
  , ("🇭🇺".data, "Hungarian")
  , ("🇮🇹".data, "Italian")
  , ("🇯🇵".data, "Japanese")
  , ("🇱🇻".data, "Latvian")
  , ("🇱🇹".data, "Lithuanian")
  , ("🇵🇱".data, "Polish")
  , ("🇵🇹".data, "Portuguese")
  , ("🇷🇴".data, "Romanian")
  , ("🇷🇺".data, "Russian")
  , ("🇷🇸".data, "Serbian")
  , ("🇸🇰".data, "Slovak")
  , ("🇸🇮".data, "Slovenian")
  , ("🇪🇸".data, "Spanish")
  , ("🇸🇪".data, "Swedish")
  , ("🇺🇦".data, "Ukrainian") ]

/-- `read_phase1.parse_languages`: the generator yields, in table order,
the language of every marker contained in the line. -/
def parse_languages (line : PyStr) : List String :=
  languageMarkers.filterMap (fun p => if containsSub line p.1 then some p.2 else none)

/-- The character set `"()"` used by `strip("()")`. -/
def parenSet : PyStr := "()".data

/-- The space separator of `line.split(" ")`. -/
def spaceSep : PyStr := " ".data

/-- The body of the per-line loop of `read_phase1`: builds one
`Phase1Room` from a (pre-normalized) terse line.  `line.split(" ")[-2]`
raises `IndexError` when the line has fewer than two space-delimited
tokens; otherwise the arguments of the `Phase1Room` constructor are as in
the source.  Note that `nominations` keeps its runtime type `str`. -/
def parsePhase1Line (line : PyStr) : Except PipelineError Phase1Room :=
  let toks := pySplit spaceSep line
  if toks.length < 2 then .error .indexError
  else
    match parse_terror_level line with
    | .error e => .error e
    | .ok tl =>
      .ok { name := pyJoin spaceSep (toks.take (toks.length - 2))
          , nominations := pyStrip (toks.getD (toks.length - 2) []) parenSet
          , new := containsSub line newMarker
          , terror_level := tl
          , languages := parse_languages line }

/-! ### The composite-name splitter (parse_name) -/

/-- The separator `" - "`. -/
def dashSep : PyStr := " - ".data

/-- The literal tested for the one-off organizer exception. -/
def escLiteral : PyStr := "- Escape Stories - Live Escape Game Wuppertal".data

/-- The split pattern used in the exception branch. -/
def escSep : PyStr := " - Escape Stories".data

/-- The duplicate-entry literal. -/
def petraLiteral : PyStr := "Petra - The Lost Kingdom".data

/-- The forced original-script name of the duplicate entry. -/
def petraOriginal : PyStr := "Petra - El reino perdido".data

/-- `parse_name`: splits a composite name string into
(english name, optional original name, company name, location),
following the source line by line.  `room_name_part.split("[")[1]` is
only evaluated under the guard `"[" in room_name_part`, which guarantees
at least two split parts, so the `getD` default is never used. -/
def parse_name (line0 : PyStr) : PyStr × Option PyStr × PyStr × PyStr :=
  let line := pyReplace (pyReplace line0 "&amp;".data "&".data) newMarker []
  let room_name_part :=
    if containsSub line escLiteral then
      (pySplit escSep line).headD []
    else
      pyJoin dashSep (pySplit dashSep line).dropLast
  let room_name_english := (pySplit "[".data room_name_part).headD []
  let room_name_original :=
    if containsSub room_name_part "[".data then
      some (pyReplace ((pySplit "[".data room_name_part).getD 1 []) "]".data [])
    else none
  let room_name_english :=
    if containsSub line petraLiteral then petraLiteral else room_name_english
  let room_name_original :=
    if containsSub line petraLiteral then some petraOriginal else room_name_original
  let room_location_part := pyLstrip (pyReplace line room_name_part []) dashSep
  let location := pyRstrip ((pySplit "(".data room_location_part).getLastD []) ")".data
  let company_name :=
    pyStrip (pyReplace room_location_part ('(' :: location ++ ")".data) []) " ".data
  (room_name_english, room_name_original, company_name, location)

/-! ### The listing merger (get_rooms) -/

/-- The default rank label. -/
def notRanked : PyStr := "Not ranked".data

/-- The first loop of `get_rooms`: one `EscapeRoom` per `Phase1Room`,
rank label defaulted. -/
def buildRooms (phase1 : List Phase1Room) : List EscapeRoom :=
  phase1.map (fun room =>
    let n := parse_name room.name
    { room_name_english := n.1
    , room_name_original := n.2.1
    , company_name := n.2.2.1
    , location := n.2.2.2
    , languages := room.languages
    , terror_level := room.terror_level
    , phase1_nominations := room.nominations
    , phase2_rank := notRanked })

/-- The predicate of the Petra list comprehension in `get_rooms`. -/
def petraPred (r : EscapeRoom) : Bool :=
  r.room_name_english == petraLiteral

/-- The duplicate-collapse step of `get_rooms`:
`rooms.pop(rooms.index([r for r in rooms if ...][0]))`.
Indexing `[0]` on an empty comprehension result raises `IndexError`. -/
def popPetra (rooms : List EscapeRoom) : Except PipelineError (List EscapeRoom) :=
  match rooms.filter petraPred with
  | [] => .error .indexError
  | p :: _ => .ok (rooms.eraseIdx (pyIndex rooms p))

/-- `get_rooms.find_room`: filters the candidate rooms by exact equality
on english name and company name, asserts that exactly one remains
(the `AssertionError` message reports the count, the name and the
company), then returns it.  The source's second parameter is misspelled
`copmany_name` and unused; the comparison and the message both read the
enclosing scope's `company_name`, which at the only call site equals the
value passed, so the embedding takes that value once. -/
def find_room (rooms : List EscapeRoom) (english company : PyStr) :
    Except PipelineError EscapeRoom :=
  match rooms.filter (fun r => r.room_name_english == english && r.company_name == company) with
  | [c] => .ok c
  | cands => .error (.correlation cands.length english company)

/-- One iteration of the phase-2 loop of `get_rooms`: parse the row name,
locate the unique matching room, set its rank.  The source mutates the
found room in place through the alias returned by `find_room`; since the
assertion guarantees exactly one room matches the key, this equals
updating every matching element of the list. -/
def applyRow (rooms : List EscapeRoom) (row : Phase2Room) :
    Except PipelineError (List EscapeRoom) :=
  let k := parse_name row.name
  match find_room rooms k.1 k.2.2.1 with
  | .error e => .error e
  | .ok _ =>
    .ok (rooms.map (fun r =>
      if r.room_name_english == k.1 && r.company_name == k.2.2.1 then
        { r with phase2_rank := row.rank }
      else r))

/-- The phase-2 loop of `get_rooms`, in row order. -/
def applyPhase2 (rooms : List EscapeRoom) : List Phase2Room → Except PipelineError (List EscapeRoom)
  | [] => .ok rooms
  | row :: rest =>
    match applyRow rooms row with
    | .error e => .error e
    | .ok rooms1 => applyPhase2 rooms1 rest

/-- `get_rooms`: build, collapse the duplicate, overlay the ranking. -/
def get_rooms (phase1 : List Phase1Room) (phase2 : List Phase2Room) :
    Except PipelineError (List EscapeRoom) :=
  match popPetra (buildRooms phase1) with
  | .error e => .error e
  | .ok rooms => applyPhase2 rooms phase2

/-! ### Laws of the string primitives -/

theorem containsSub_iff {hay n : PyStr} : containsSub hay n = true ↔ n <:+: hay := by
  unfold containsSub
  rw [List.any_eq_true]
  constructor
  · rintro ⟨t, ht, hp⟩
    rw [List.mem_tails] at ht
    rw [List.isPrefixOf_iff_prefix] at hp
    exact List.infix_iff_prefix_suffix.mpr ⟨t, hp, ht⟩
  · intro h
    obtain ⟨t, hp, hs⟩ := List.infix_iff_prefix_suffix.mp h
    exact ⟨t, (List.mem_tails _ _).mpr hs, List.isPrefixOf_iff_prefix.mpr hp⟩

theorem containsSub_append_mid (a n b : PyStr) : containsSub (a ++ n ++ b) n = true := by
  refine containsSub_iff.mpr ⟨a, b, ?_⟩
  simp

theorem containsSub_nil_needle (s : PyStr) : containsSub s [] = true :=
  containsSub_iff.mpr List.nil_infix

theorem splitGo_nil (sep : PyStr) (f : Nat) : splitGo sep f [] = [[]] := by
  cases f <;> rfl

theorem splitGo_fuel (sep : PyStr) :
    ∀ f g s, s.length ≤ f → s.length ≤ g → splitGo sep f s = splitGo sep g s := by
  intro f
  induction f with
  | zero =>
    intro g s hf _
    have : s = [] := List.length_eq_zero.mp (Nat.le_zero.mp hf)
    subst this
    rw [splitGo_nil, splitGo_nil]
  | succ f ih =>
    intro g s hf hg
    cases s with
    | nil => rw [splitGo_nil, splitGo_nil]
    | cons c cs =>
      cases g with
      | zero => exact absurd hg (by simp)
      | succ g =>
        have hcs : cs.length ≤ f := Nat.le_of_succ_le_succ hf
        have hcs2 : cs.length ≤ g := Nat.le_of_succ_le_succ hg
        show splitGo sep (f + 1) (c :: cs) = splitGo sep (g + 1) (c :: cs)
        simp only [splitGo]
        by_cases h : sep ≠ [] ∧ sep.isPrefixOf (c :: cs) = true
        · rw [if_pos h, if_pos h]
          have hd : (cs.drop (sep.length - 1)).length ≤ cs.length := by
            simp
          rw [ih _ _ (le_trans hd hcs) (le_trans hd hcs2)]
        · rw [if_neg h, if_neg h, ih _ _ hcs hcs2]

theorem pySplit_nil (sep : PyStr) : pySplit sep [] = [[]] := by
  simp [pySplit, splitGo_nil]

theorem splitGo_ne_nil (sep : PyStr) : ∀ f s, splitGo sep f s ≠ [] := by
  intro f
  induction f with
  | zero => intro s; cases s <;> simp [splitGo]
  | succ f ih =>
    intro s
    cases s with
    | nil => simp [splitGo]
    | cons c cs =>
      simp only [splitGo]
      split
      · simp
      · split
        · simp
        · simp

theorem pySplit_ne_nil (sep s : PyStr) : pySplit sep s ≠ [] :=
  splitGo_ne_nil sep _ s

theorem pySplit_cons_pos {sep : PyStr} (c : Char) (cs : PyStr)
    (h1 : sep ≠ []) (h2 : sep.isPrefixOf (c :: cs) = true) :
    pySplit sep (c :: cs) = [] :: pySplit sep (cs.drop (sep.length - 1)) := by
  show splitGo sep (cs.length + 1) (c :: cs) = _
  simp only [splitGo, if_pos (And.intro h1 h2)]
  rw [splitGo_fuel sep cs.length (cs.drop (sep.length - 1)).length _
    (by simp) (le_refl _)]
  rfl

theorem pySplit_cons_neg {sep : PyStr} (c : Char) (cs : PyStr)
    (h : ¬(sep ≠ [] ∧ sep.isPrefixOf (c :: cs) = true)) :
    pySplit sep (c :: cs) = (c :: (pySplit sep cs).headD []) :: (pySplit sep cs).tail := by
  show splitGo sep (cs.length + 1) (c :: cs) = _
  simp only [splitGo, if_neg h]
  obtain ⟨p, ps, he⟩ : ∃ p ps, pySplit sep cs = p :: ps := by
    cases hcs : pySplit sep cs with
    | nil => exact absurd hcs (pySplit_ne_nil sep cs)
    | cons p ps => exact ⟨p, ps, rfl⟩
  have : splitGo sep cs.length cs = p :: ps := he
  rw [this, he]
  rfl

theorem pySplit_no_occurrence {sep s : PyStr} (h : containsSub s sep = false) :
    pySplit sep s = [s] := by
  induction s with
  | nil => exact pySplit_nil sep
  | cons c cs ih =>
    have hpre : ¬ sep.isPrefixOf (c :: cs) = true := by
      intro hp
      have : containsSub (c :: cs) sep = true :=
        containsSub_iff.mpr (List.isPrefixOf_iff_prefix.mp hp).isInfix
      rw [h] at this
      exact Bool.false_ne_true this
    have hcs : containsSub cs sep = false := by
      by_contra hne
      have : containsSub cs sep = true := by
        cases hb : containsSub cs sep
        · exact absurd hb hne
        · rfl
      have : containsSub (c :: cs) sep = true :=
        containsSub_iff.mpr ((containsSub_iff.mp this).trans (List.suffix_cons c cs).isInfix)
      rw [h] at this
      exact Bool.false_ne_true this
    rw [pySplit_cons_neg c cs (by intro hand; exact hpre hand.2), ih hcs]
    rfl

theorem pySplit_append_sep {sep : PyStr} (hsep : sep ≠ []) :
    ∀ (xs ys : PyStr),
      (∀ i < xs.length, ¬ sep.isPrefixOf ((xs ++ (sep ++ ys)).drop i) = true) →
      pySplit sep (xs ++ (sep ++ ys)) = xs :: pySplit sep ys := by
  intro xs
  induction xs with
  | nil =>
    intro ys _
    obtain ⟨d, ds, rfl⟩ : ∃ d ds, sep = d :: ds := by
      cases sep with
      | nil => exact absurd rfl hsep
      | cons d ds => exact ⟨d, ds, rfl⟩
    show pySplit (d :: ds) (d :: (ds ++ ys)) = [] :: pySplit (d :: ds) ys
    rw [pySplit_cons_pos d (ds ++ ys) hsep
      (List.isPrefixOf_iff_prefix.mpr (by simp))]
    simp [List.drop_left]
  | cons x xs1 ih =>
    intro ys H
    have h0 : ¬ sep.isPrefixOf (x :: (xs1 ++ (sep ++ ys))) = true := by
      have := H 0 (by simp)
      simpa using this
    have Hs : ∀ i < xs1.length, ¬ sep.isPrefixOf ((xs1 ++ (sep ++ ys)).drop i) = true := by
      intro i hi
      have := H (i + 1) (by simpa using Nat.succ_lt_succ hi)
      simpa using this
    show pySplit sep (x :: (xs1 ++ (sep ++ ys))) = (x :: xs1) :: pySplit sep ys
    rw [pySplit_cons_neg x _ (by intro hand; exact h0 hand.2), ih ys Hs]
    rfl

theorem no_early_occurrence {sep : PyStr} (xs ys : PyStr)
    (H : containsSub ((xs ++ sep).dropLast) sep = false) :
    ∀ i < xs.length, ¬ sep.isPrefixOf ((xs ++ (sep ++ ys)).drop i) = true := by
  intro i hi hpre
  set L : PyStr := xs ++ (sep ++ ys) with hL
  rw [List.isPrefixOf_iff_prefix] at hpre
  have h1 : sep <:+: L.take (i + sep.length) := by
    have heq : sep = (L.take (i + sep.length)).drop i := by
      rw [List.drop_take]
      have : i + sep.length - i = sep.length := by omega
      rw [this]
      conv_lhs => rw [List.prefix_iff_eq_take.mp hpre]
    have hs : (L.take (i + sep.length)).drop i <:+: L.take (i + sep.length) :=
      (List.drop_suffix _ _).isInfix
    rw [← heq] at hs
    exact hs
  have hxs : 1 ≤ xs.length := Nat.one_le_of_lt (Nat.lt_of_le_of_lt (Nat.zero_le i) hi)
  have h2 : L.take (i + sep.length) <+: L.take (xs.length + sep.length - 1) := by
    apply List.take_prefix_take_left
    omega
  have h3 : L.take (xs.length + sep.length - 1) = (xs ++ sep).dropLast := by
    rw [List.dropLast_eq_take]
    have hlen : (xs ++ sep).length = xs.length + sep.length := by simp
    rw [hlen, hL, ← List.append_assoc]
    exact List.take_append_of_le_length (by simp)
  have : containsSub ((xs ++ sep).dropLast) sep = true := by
    refine containsSub_iff.mpr ?_
    rw [← h3]
    exact h1.trans h2.isInfix
  rw [H] at this
  exact Bool.false_ne_true this

theorem pyReplace_no_occurrence {s pat : PyStr} (rep : PyStr)
    (h : containsSub s pat = false) : pyReplace s pat rep = s := by
  have hpat : pat ≠ [] := by
    intro he
    subst he
    rw [containsSub_nil_needle] at h
    simp at h
  rw [pyReplace, if_neg hpat, pySplit_no_occurrence h]
  rfl

/-! ### Laws of the listing merger -/

/-- The english name of a tabular row after parsing its name field. -/
def rowEnglish (row : Phase2Room) : PyStr :=
  (parse_name row.name).1

/-- The company name of a tabular row after parsing its name field. -/
def rowCompany (row : Phase2Room) : PyStr :=
  (parse_name row.name).2.2.1

/-- Number of rooms matching a (english name, company name) key; the
length of the candidate list built by `find_room`. -/
def countMatches (rooms : List EscapeRoom) (english company : PyStr) : Nat :=
  (rooms.filter (fun r => r.room_name_english == english && r.company_name == company)).length

theorem find_room_ok_iff (rooms : List EscapeRoom) (english company : PyStr) :
    (∃ r, find_room rooms english company = .ok r) ↔ countMatches rooms english company = 1 := by
  unfold find_room countMatches
  cases h : rooms.filter (fun r => r.room_name_english == english && r.company_name == company) with
  | nil => simp
  | cons x xs =>
    cases xs with
    | nil => simp
    | cons y ys => simp

theorem find_room_error (rooms : List EscapeRoom) (english company : PyStr)
    (h : countMatches rooms english company ≠ 1) :
    find_room rooms english company =
      .error (.correlation (countMatches rooms english company) english company) := by
  unfold find_room countMatches at *
  cases hf : rooms.filter (fun r => r.room_name_english == english && r.company_name == company) with
  | nil => rfl
  | cons x xs =>
    cases xs with
    | nil => rw [hf] at h; simp at h
    | cons y ys => rfl

/-- The in-place rank update performed by one phase-2 iteration. -/
def setRank (english company rank : PyStr) (r : EscapeRoom) : EscapeRoom :=
  if r.room_name_english == english && r.company_name == company then
    { r with phase2_rank := rank }
  else r

theorem setRank_room_name_english (english company rank : PyStr) (r : EscapeRoom) :
    (setRank english company rank r).room_name_english = r.room_name_english := by
  unfold setRank
  split <;> rfl

theorem setRank_company_name (english company rank : PyStr) (r : EscapeRoom) :
    (setRank english company rank r).company_name = r.company_name := by
  unfold setRank
  split <;> rfl

theorem applyRow_eq (rooms : List EscapeRoom) (row : Phase2Room) :
    applyRow rooms row =
      match find_room rooms (rowEnglish row) (rowCompany row) with
      | .error e => .error e
      | .ok _ => .ok (rooms.map (setRank (rowEnglish row) (rowCompany row) row.rank)) :=
  rfl

theorem applyRow_ok (rooms : List EscapeRoom) (row : Phase2Room)
    (h : countMatches rooms (rowEnglish row) (rowCompany row) = 1) :
    applyRow rooms row = .ok (rooms.map (setRank (rowEnglish row) (rowCompany row) row.rank)) := by
  obtain ⟨r, hr⟩ := (find_room_ok_iff rooms (rowEnglish row) (rowCompany row)).mpr h
  rw [applyRow_eq, hr]

theorem applyRow_error (rooms : List EscapeRoom) (row : Phase2Room)
    (h : countMatches rooms (rowEnglish row) (rowCompany row) ≠ 1) :
    applyRow rooms row =
      .error (.correlation (countMatches rooms (rowEnglish row) (rowCompany row))
        (rowEnglish row) (rowCompany row)) := by
  rw [applyRow_eq, find_room_error rooms _ _ h]

/-- Mapping a field-preserving function over the rooms does not change
any count of matching rooms. -/
theorem filter_length_map (rooms : List EscapeRoom) (p : EscapeRoom → Bool)
    (f : EscapeRoom → EscapeRoom) (hf : ∀ r, p (f r) = p r) :
    ((rooms.map f).filter p).length = (rooms.filter p).length := by
  induction rooms with
  | nil => rfl
  | cons a t ih =>
    simp only [List.map_cons, List.filter_cons]
    rw [hf a]
    cases p a <;> simp [ih]

theorem countMatches_map_setRank (rooms : List EscapeRoom) (e0 c0 rank english company : PyStr) :
    countMatches (rooms.map (setRank e0 c0 rank)) english company =
      countMatches rooms english company := by
  unfold countMatches
  apply filter_length_map
  intro r
  rw [setRank_room_name_english, setRank_company_name]

theorem applyPhase2_nil (rooms : List EscapeRoom) : applyPhase2 rooms [] = .ok rooms :=
  rfl

theorem applyPhase2_cons (rooms : List EscapeRoom) (row : Phase2Room) (rest : List Phase2Room) :
    applyPhase2 rooms (row :: rest) =
      match applyRow rooms row with
      | .error e => .error e
      | .ok rooms1 => applyPhase2 rooms1 rest :=
  rfl

theorem applyPhase2_cons_ok (rooms : List EscapeRoom) (row : Phase2Room) (rest : List Phase2Room)
    (h : countMatches rooms (rowEnglish row) (rowCompany row) = 1) :
    applyPhase2 rooms (row :: rest) =
      applyPhase2 (rooms.map (setRank (rowEnglish row) (rowCompany row) row.rank)) rest := by
  rw [applyPhase2_cons, applyRow_ok rooms row h]

theorem applyPhase2_cons_error (rooms : List EscapeRoom) (row : Phase2Room) (rest : List Phase2Room)
    (h : countMatches rooms (rowEnglish row) (rowCompany row) ≠ 1) :
    applyPhase2 rooms (row :: rest) =
      .error (.correlation (countMatches rooms (rowEnglish row) (rowCompany row))
        (rowEnglish row) (rowCompany row)) := by
  rw [applyPhase2_cons, applyRow_error rooms row h]

theorem applyPhase2_ok_iff (phase2 : List Phase2Room) :
    ∀ rooms : List EscapeRoom,
      ((∃ out, applyPhase2 rooms phase2 = .ok out) ↔
        ∀ row ∈ phase2, countMatches rooms (rowEnglish row) (rowCompany row) = 1) := by
  induction phase2 with
  | nil =>
    intro rooms
    constructor
    · intro _ row hrow
      exact absurd hrow (List.not_mem_nil row)
    · intro _
      exact ⟨rooms, rfl⟩
  | cons row rest ih =>
    intro rooms
    by_cases h : countMatches rooms (rowEnglish row) (rowCompany row) = 1
    · rw [applyPhase2_cons_ok rooms row rest h]
      rw [ih (rooms.map (setRank (rowEnglish row) (rowCompany row) row.rank))]
      constructor
      · intro hall r2 hr2
        rcases List.mem_cons.mp hr2 with rfl | hmem
        · exact h
        · have := hall r2 hmem
          rwa [countMatches_map_setRank] at this
      · intro hall r2 hr2
        rw [countMatches_map_setRank]
        exact hall r2 (List.mem_cons_of_mem row hr2)
    · constructor
      · rintro ⟨out, hout⟩
        rw [applyPhase2_cons_error rooms row rest h] at hout
        exact absurd hout (by simp)
      · intro hall
        exact absurd (hall row (List.mem_cons_self row rest)) h

theorem applyPhase2_error (phase2 : List Phase2Room) :
    ∀ (rooms : List EscapeRoom) (err : PipelineError),
      applyPhase2 rooms phase2 = .error err →
      ∃ row ∈ phase2,
        countMatches rooms (rowEnglish row) (rowCompany row) ≠ 1 ∧
        err = .correlation (countMatches rooms (rowEnglish row) (rowCompany row))
          (rowEnglish row) (rowCompany row) := by
  induction phase2 with
  | nil =>
    intro rooms err h
    rw [applyPhase2_nil] at h
    exact absurd h (by simp)
  | cons row rest ih =>
    intro rooms err h
    by_cases hc : countMatches rooms (rowEnglish row) (rowCompany row) = 1
    · rw [applyPhase2_cons_ok rooms row rest hc] at h
      obtain ⟨r2, hr2, hne, herr⟩ := ih _ err h
      refine ⟨r2, List.mem_cons_of_mem row hr2, ?_, ?_⟩
      · rwa [countMatches_map_setRank] at hne
      · rwa [countMatches_map_setRank] at herr
    · rw [applyPhase2_cons_error rooms row rest hc] at h
      refine ⟨row, List.mem_cons_self row rest, hc, ?_⟩
      have := Except.error.inj h
      exact this.symm

/-! ### Laws of the duplicate-collapse step -/

theorem pyIndex_filter_head {α : Type} [DecidableEq α] (p : α → Bool) :
    ∀ (l : List α) (x : α) (xs : List α), l.filter p = x :: xs → pyIndex l x = l.findIdx p := by
  intro l
  induction l with
  | nil => intro x xs h; simp at h
  | cons a t ih =>
    intro x xs h
    by_cases hpa : p a = true
    · rw [List.filter_cons_of_pos hpa] at h
      obtain ⟨rfl, -⟩ := List.cons.inj h
      unfold pyIndex
      rw [List.findIdx_cons, List.findIdx_cons]
      simp [hpa]
    · rw [List.filter_cons_of_neg (by simpa using hpa)] at h
      have hx : p x = true := by
        have : x ∈ t.filter p := by
          rw [h]
          exact List.mem_cons_self x xs
        exact (List.mem_filter.mp this).2
      have hax : (a == x) = false := by
        by_contra hne
        have : (a == x) = true := by
          cases hb : (a == x)
          · exact absurd hb hne
          · rfl
        have : a = x := by
          simpa using this
        subst this
        rw [hx] at hpa
        exact hpa rfl
      unfold pyIndex at ih ⊢
      rw [List.findIdx_cons, List.findIdx_cons, hax, Bool.cond_false,
        show p a = false by simpa using hpa, Bool.cond_false]
      rw [ih x xs h]

theorem filter_length_eraseIdx_findIdx (p : EscapeRoom → Bool) :
    ∀ l : List EscapeRoom, l.filter p ≠ [] →
      ((l.eraseIdx (l.findIdx p)).filter p).length + 1 = (l.filter p).length := by
  intro l
  induction l with
  | nil => intro h; simp at h
  | cons a t ih =>
    intro h
    by_cases hpa : p a = true
    · rw [List.findIdx_cons, hpa, Bool.cond_true]
      rw [List.eraseIdx_cons_zero, List.filter_cons_of_pos hpa]
      simp
    · have hpa2 : p a = false := by simpa using hpa
      rw [List.findIdx_cons, hpa2, Bool.cond_false]
      rw [List.eraseIdx_cons_succ, List.filter_cons_of_neg (by simp [hpa2]),
        List.filter_cons_of_neg (by simp [hpa2])]
      apply ih
      rw [List.filter_cons_of_neg (by simp [hpa2])] at h
      exact h

theorem popPetra_none {rooms : List EscapeRoom} (h : rooms.filter petraPred = []) :
    popPetra rooms = .error .indexError := by
  unfold popPetra
  rw [h]

theorem popPetra_ok {rooms : List EscapeRoom} (h : rooms.filter petraPred ≠ []) :
    popPetra rooms = .ok (rooms.eraseIdx (rooms.findIdx petraPred)) := by
  unfold popPetra
  cases hf : rooms.filter petraPred with
  | nil => exact absurd hf h
  | cons x xs =>
    show Except.ok (rooms.eraseIdx (pyIndex rooms x)) =
      Except.ok (rooms.eraseIdx (rooms.findIdx petraPred))
    rw [pyIndex_filter_head petraPred rooms x xs hf]

/-! ### Additional string laws used for the organizer exception -/

theorem charIn_iff {c : Char} {set : PyStr} : charIn c set = true ↔ c ∈ set := by
  unfold charIn
  rw [List.any_eq_true]
  constructor
  · rintro ⟨d, hd, hbeq⟩
    have : d = c := by simpa using hbeq
    subst this
    exact hd
  · intro h
    exact ⟨c, h, by simp⟩

theorem charIn_eq_false {c : Char} {set : PyStr} : charIn c set = false ↔ c ∉ set := by
  rw [← charIn_iff]
  cases charIn c set <;> simp

theorem containsSub_singleton {s : PyStr} {c : Char} : containsSub s [c] = true ↔ c ∈ s := by
  rw [containsSub_iff]
  constructor
  · intro h
    exact h.subset (by simp)
  · intro h
    obtain ⟨x, y, rfl⟩ := List.append_of_mem h
    exact ⟨x, y, by simp⟩

theorem dropWhile_append_of_ne_nil (p : Char → Bool) :
    ∀ (a b : List Char), List.dropWhile p a ≠ [] →
      List.dropWhile p (a ++ b) = List.dropWhile p a ++ b := by
  intro a
  induction a with
  | nil => intro b h; exact absurd rfl h
  | cons c cs ih =>
    intro b h
    by_cases hc : p c = true
    · rw [List.dropWhile_cons, if_pos hc] at h
      rw [List.cons_append, List.dropWhile_cons, if_pos hc, List.dropWhile_cons, if_pos hc]
      exact ih b h
    · rw [List.cons_append, List.dropWhile_cons, if_neg hc, List.dropWhile_cons, if_neg hc]
      rfl

theorem dropWhile_eq_self_of_all (p : Char → Bool) (l : List Char)
    (h : ∀ c ∈ l, p c = false) : List.dropWhile p l = l := by
  cases l with
  | nil => rfl
  | cons c cs =>
    rw [List.dropWhile_cons, if_neg (by simp [h c (List.mem_cons_self c cs)])]

theorem no_early_occ_head {d : Char} {ds : PyStr} (xs ys : PyStr) (h : charIn d xs = false) :
    ∀ i < xs.length, ¬ (d :: ds).isPrefixOf ((xs ++ ((d :: ds) ++ ys)).drop i) = true := by
  intro i hi hp
  rw [List.isPrefixOf_iff_prefix] at hp
  obtain ⟨t, ht⟩ := hp
  have hdrop : (xs ++ ((d :: ds) ++ ys)).drop i = d :: (ds ++ t) := by
    rw [← ht]
    simp
  have hdrop2 : (xs ++ ((d :: ds) ++ ys)).drop i = xs.drop i ++ ((d :: ds) ++ ys) :=
    List.drop_append_of_le_length (Nat.le_of_lt hi)
  obtain ⟨c, cs, hcs⟩ : ∃ c cs, xs.drop i = c :: cs := by
    cases hx : xs.drop i with
    | nil =>
      exfalso
      have := List.drop_eq_nil_iff.mp hx
      omega
    | cons c cs => exact ⟨c, cs, rfl⟩
  rw [hdrop2, hcs] at hdrop
  have hd : c = d := (List.cons.inj hdrop).1
  have hmem : d ∈ xs := by
    rw [← hd]
    exact List.drop_subset i xs (hcs ▸ List.mem_cons_self c cs)
  rw [charIn_eq_false] at h
  exact h hmem

/-! ### Concrete inputs used by witnesses and counterexamples -/

/-- A tabular row with only rank and name populated. -/
def mkRow (rank name : String) : Phase2Room :=
  ⟨rank.data, name.data, [], [], [], [], [], none⟩

/-- A terse entry with only the name populated. -/
def mkP1 (name : String) : Phase1Room :=
  ⟨name.data, "1".data, false, .NONE, []⟩

/-- The terse line of the spec scenario of section 8. -/
def c4Line : PyStr := "🆕 Spooky Room (12) 👻 🇬🇧🇫🇷 - Org (Townsville)".data

/-- The name field the decoder extracts from the scenario line. -/
def c4Name : PyStr := "🆕 Spooky Room (12) 👻 🇬🇧🇫🇷 -".data

/-- A terse line in the layout the decoder expects: composite name, then
the parenthesized count, then the markers. -/
def c5Line : PyStr := "Room A - Org (Town) (12) 👻".data

def w1Room : EscapeRoom :=
  ⟨"A".data, none, "B".data, "C".data, [], .NONE, "1".data, notRanked⟩

def w1Row : Phase2Room := mkRow "7" "A - B (C)"

def petraP1a : Phase1Room := mkP1 "Petra - The Lost Kingdom [Petra uno] - DubiousOrg (Amman)"

def petraP1b : Phase1Room := mkP1 "Petra - The Lost Kingdom [Petra dos] - DubiousOrg (Amman)"

def dupP1 : Phase1Room := mkP1 "A - Org (X)"

def plainP1 : Phase1Room := mkP1 "Foo - Bar (Baz)"

def petraRow : Phase2Room := mkRow "5" "Petra - The Lost Kingdom - DubiousOrg (Amman)"

def c7Phase1 : List Phase1Room := [petraP1a, petraP1b, dupP1, dupP1]

def c7wPhase1 : List Phase1Room := [petraP1a, petraP1b, plainP1]

/-- Whether every (display name, organizer) pair of the collection is
unique. -/
def pairsUnique (rooms : List EscapeRoom) : Bool :=
  decide ((rooms.map (fun r => (r.room_name_english, r.company_name))).Nodup)

def w10Petra : EscapeRoom :=
  ⟨petraLiteral, none, "DubiousOrg".data, "Amman".data, [], .NONE, "1".data, notRanked⟩

/-! ### Claims -/

/-- C1: for each tabular row, after parsing its name field, exactly one
merged entry with an equal (display name, organizer) pair must exist for
the merge loop to succeed; with zero or more than one matches the loop
fails with the correlation error reporting the number of matches and the
queried name and organizer (and, the result being an error, no output
list is produced); in particular a row with no counterpart can never
leave the loop silently successful. -/
theorem C1_correlation_contract (rooms : List EscapeRoom) (phase2 : List Phase2Room) :
    ((∃ out, applyPhase2 rooms phase2 = .ok out) ↔
      ∀ row ∈ phase2, countMatches rooms (rowEnglish row) (rowCompany row) = 1) ∧
    (∀ err, applyPhase2 rooms phase2 = .error err →
      ∃ row ∈ phase2,
        countMatches rooms (rowEnglish row) (rowCompany row) ≠ 1 ∧
        err = .correlation (countMatches rooms (rowEnglish row) (rowCompany row))
          (rowEnglish row) (rowCompany row)) :=
  ⟨applyPhase2_ok_iff phase2 rooms, fun err h => applyPhase2_error phase2 rooms err h⟩

theorem C1_correlation_contract_witness :
    (∃ out, applyPhase2 [w1Room] [w1Row] = .ok out) ∧
    (∃ row ∈ [w1Row],
      countMatches ([] : List EscapeRoom) (rowEnglish row) (rowCompany row) ≠ 1 ∧
      PipelineError.correlation 0 "A".data "B".data =
        .correlation (countMatches ([] : List EscapeRoom) (rowEnglish row) (rowCompany row))
          (rowEnglish row) (rowCompany row)) :=
  ⟨(C1_correlation_contract [w1Room] [w1Row]).1.mpr (by decide),
   (C1_correlation_contract [] [w1Row]).2 (.correlation 0 "A".data "B".data) rfl⟩

/-- C2: `parse_terror_level` returns its decode error, whose message
contains the offending line verbatim, exactly when the line contains
none of the four rating markers; any line containing at least one marker
decodes to a rating level. -/
theorem C2_decode_error_iff (line : PyStr) :
    (parse_terror_level line = .error (.decodeError (terrorErrMsg line)) ↔
      containsSub line sunMarker = false ∧ containsSub line ghostMarker = false ∧
      containsSub line flashlightMarker = false ∧ containsSub line screamMarker = false) ∧
    containsSub (terrorErrMsg line) line = true ∧
    ((containsSub line sunMarker = true ∨ containsSub line ghostMarker = true ∨
      containsSub line flashlightMarker = true ∨ containsSub line screamMarker = true) →
      ∃ lv, parse_terror_level line = .ok lv) := by
  refine ⟨?_, ?_, ?_⟩
  · unfold parse_terror_level
    cases h1 : containsSub line sunMarker <;> cases h2 : containsSub line ghostMarker <;>
      cases h3 : containsSub line flashlightMarker <;>
      cases h4 : containsSub line screamMarker <;> simp
  · unfold terrorErrMsg
    exact containsSub_append_mid _ _ _
  · intro h
    unfold parse_terror_level
    cases h1 : containsSub line sunMarker <;> cases h2 : containsSub line ghostMarker <;>
      cases h3 : containsSub line flashlightMarker <;>
      cases h4 : containsSub line screamMarker <;> simp_all

theorem C2_decode_error_iff_witness :
    (parse_terror_level "abc".data = .error (.decodeError (terrorErrMsg "abc".data))) ∧
    (∃ lv, parse_terror_level "x 👻".data = .ok lv) :=
  ⟨(C2_decode_error_iff "abc".data).1.mpr (by decide),
   (C2_decode_error_iff "x 👻".data).2.2 (Or.inr (Or.inl (by decide)))⟩

/-- C3 counterexample: splitting the documented composite name does not
give displayName "Foo Bar": `split("[")[0]` keeps the space before the
bracket, so the display name is "Foo Bar " with a trailing space. -/
theorem C3_roundtrip_counterexample :
    parse_name "Foo Bar [Foo Baz] - Acme Co (Springfield)".data ≠
      ("Foo Bar".data, some "Foo Baz".data, "Acme Co".data, "Springfield".data) := by
  decide

/-- C3 amended: splitting the composite name
"Foo Bar [Foo Baz] - Acme Co (Springfield)" yields
displayName "Foo Bar " (everything before the first bracket, trailing
space included), originalName "Foo Baz", organizer "Acme Co" and
location "Springfield". -/
theorem C3_roundtrip_amended :
    parse_name "Foo Bar [Foo Baz] - Acme Co (Springfield)".data =
      ("Foo Bar ".data, some "Foo Baz".data, "Acme Co".data, "Springfield".data) := by
  decide

/-- C4 counterexample: decoding the spec scenario line does not give
nomination count 12, and splitting the decoded name does not give
display name "Spooky Room".  The decoder takes the second-to-last
space-delimited token as the count, which in this line is "Org". -/
theorem C4_scenario_counterexample :
    (parsePhase1Line c4Line = .ok
      ⟨c4Name, "Org".data, true, .SPOOKY, ["English", "French"]⟩) ∧
    "Org".data ≠ "12".data ∧
    (parse_name c4Name).1 ≠ "Spooky Room".data := by
  refine ⟨rfl, by decide, by decide⟩

/-- C4 amended: the scenario line decodes to isNew true, rating Spooky
and languages English and French as claimed, but — the line not being in
the decoder's expected layout (count and markers come last) — the
nomination count field receives the string "Org" and the name field
keeps the count and the markers; splitting that name yields an empty
display name, no original name, organizer "Spooky Room (12) 👻 🇬🇧🇫🇷 -"
and location "12) 👻 🇬🇧🇫🇷 -". -/
theorem C4_scenario_amended :
    parsePhase1Line c4Line = .ok
      ⟨c4Name, "Org".data, true, .SPOOKY, ["English", "French"]⟩ ∧
    parse_name c4Name =
      ([], none, "Spooky Room (12) 👻 🇬🇧🇫🇷 -".data, "12) 👻 🇬🇧🇫🇷 -".data) := by
  refine ⟨rfl, by decide⟩

/-- C5: at a terse line in the decoder's layout, the name is all tokens
but the last two rejoined by single spaces as claimed, but the
nomination count is stored as the *string* "12" — the parenthesized
token with the parentheses stripped, never converted to an integer
although the dataclass annotates the field `int`. -/
theorem C5_nominations_string :
    parsePhase1Line c5Line = .ok
      ⟨"Room A - Org (Town)".data, "12".data, false, .SPOOKY, []⟩ :=
  rfl

/-- C6: the decoded language list depends only on which of the markers
of the table occur in the line (so reordering markers yields the same
list), membership of each language is equivalent to containment of its
marker, and the list may be empty. -/
theorem C6_language_extraction (l1 l2 : PyStr) :
    ((∀ p ∈ languageMarkers, containsSub l1 p.1 = containsSub l2 p.1) →
      parse_languages l1 = parse_languages l2) ∧
    (∀ p ∈ languageMarkers, (p.2 ∈ parse_languages l1 ↔ containsSub l1 p.1 = true)) ∧
    parse_languages "no markers here".data = [] := by
  have hnodup : (languageMarkers.map Prod.snd).Nodup := by decide
  refine ⟨?_, ?_, by decide⟩
  · intro h
    unfold parse_languages
    apply List.filterMap_congr
    intro p hp
    rw [h p hp]
  · intro p hp
    unfold parse_languages
    rw [List.mem_filterMap]
    constructor
    · rintro ⟨q, hq, hfq⟩
      by_cases hc : containsSub l1 q.1 = true
      · rw [if_pos hc] at hfq
        have hq2 : q.2 = p.2 := Option.some.inj hfq
        have : q = p := List.inj_on_of_nodup_map hnodup hq hp hq2
        subst this
        exact hc
      · rw [if_neg hc] at hfq
        exact absurd hfq (by simp)
    · intro hc
      exact ⟨p, hp, by rw [if_pos hc]⟩

theorem C6_language_extraction_witness :
    parse_languages "a 🇬🇧 🇫🇷".data = parse_languages "🇫🇷 b 🇬🇧".data ∧
    ("English" ∈ parse_languages "a 🇬🇧 🇫🇷".data ↔
      containsSub "a 🇬🇧 🇫🇷".data "🇬🇧".data = true) :=
  ⟨(C6_language_extraction "a 🇬🇧 🇫🇷".data "🇫🇷 b 🇬🇧".data).1 (by decide),
   (C6_language_extraction "a 🇬🇧 🇫🇷".data "🇫🇷 b 🇬🇧".data).2.1
     ("🇬🇧".data, "English") (by decide)⟩

/-- C9: when a line contains several rating markers no error is raised:
the result is the rating of the first marker present in the fixed order
sun (None), ghost (Spooky), flashlight (Passively scary), scream
(Actively scary); uniqueness of the marker is never checked. -/
theorem C9_rating_precedence (line : PyStr) :
    (containsSub line sunMarker = true → parse_terror_level line = .ok .NONE) ∧
    (containsSub line sunMarker = false → containsSub line ghostMarker = true →
      parse_terror_level line = .ok .SPOOKY) ∧
    (containsSub line sunMarker = false → containsSub line ghostMarker = false →
      containsSub line flashlightMarker = true →
      parse_terror_level line = .ok .PASSIVELY_SCARY) ∧
    (containsSub line sunMarker = false → containsSub line ghostMarker = false →
      containsSub line flashlightMarker = false → containsSub line screamMarker = true →
      parse_terror_level line = .ok .ACTIVELY_SCARY) := by
  unfold parse_terror_level
  refine ⟨?_, ?_, ?_, ?_⟩ <;> intros <;> simp_all

theorem C9_rating_precedence_witness :
    parse_terror_level "👻 😱".data = .ok .SPOOKY :=
  (C9_rating_precedence "👻 😱".data).2.1 (by decide) (by decide)

/-- C10: the duplicate-collapse step is unconditional — whenever no
entry of the built list has the Petra display name, `get_rooms` fails
with the index error (for every phase-2 input), so no output is ever
produced; and when such an entry exists, the step removes exactly the
first entry (in document order) whose display name is the Petra
literal. -/
theorem C10_unconditional_collapse :
    (∀ (phase1 : List Phase1Room) (phase2 : List Phase2Room),
      (∀ r ∈ buildRooms phase1, r.room_name_english ≠ petraLiteral) →
      get_rooms phase1 phase2 = .error .indexError) ∧
    (∀ rooms : List EscapeRoom, rooms.filter petraPred ≠ [] →
      popPetra rooms = .ok (rooms.eraseIdx (rooms.findIdx petraPred))) := by
  constructor
  · intro p1 p2 h
    have hnil : (buildRooms p1).filter petraPred = [] := by
      rw [List.filter_eq_nil_iff]
      intro r hr
      unfold petraPred
      simp only [beq_iff_eq]
      simpa using h r hr
    unfold get_rooms
    rw [popPetra_none hnil]
  · intro rooms h
    exact popPetra_ok h

theorem C10_unconditional_collapse_witness :
    get_rooms [plainP1] [] = .error .indexError ∧
    popPetra [w10Petra] = .ok [] := by
  constructor
  · exact C10_unconditional_collapse.1 [plainP1] [] (by decide)
  · have h := C10_unconditional_collapse.2 [w10Petra] (by decide)
    rwa [show ([w10Petra].eraseIdx ([w10Petra].findIdx petraPred)) = [] by decide] at h

/-- C7 counterexample: in a run satisfying the claim's premises (the
terse listing holds exactly two entries with the Petra display name,
sharing one organizer; a single tabular row references the merged
identity), the merge succeeds even though the final collection contains
a repeated (display name, organizer) pair — two unreferenced identical
entries survive — so the claimed uniqueness of every pair fails. -/
theorem C7_duplicate_collapse_counterexample :
    ((buildRooms c7Phase1).filter petraPred).length = 2 ∧
    (∀ r ∈ buildRooms c7Phase1, petraPred r = true → r.company_name = "DubiousOrg".data) ∧
    rowEnglish petraRow = petraLiteral ∧
    rowCompany petraRow = "DubiousOrg".data ∧
    (get_rooms c7Phase1 [petraRow]).toOption.map pairsUnique = some false := by
  refine ⟨by decide, by decide, by decide, by decide, by decide⟩

/-- C7 amended: given a terse listing whose built entries contain
exactly two with the Petra display name, both with the same organizer,
and a single tabular row whose parsed key is that display name and
organizer, the merge succeeds, the output contains exactly one entry
with the Petra display name, and that entry's rank label equals the
row's rank field.  Uniqueness of (display name, organizer) pairs is
guaranteed only for keys queried by tabular rows; pairs never queried
may repeat. -/
theorem C7_duplicate_collapse_amended (phase1 : List Phase1Room) (row : Phase2Room) (c : PyStr)
    (h2 : ((buildRooms phase1).filter petraPred).length = 2)
    (hc : ∀ r ∈ buildRooms phase1, petraPred r = true → r.company_name = c)
    (hk1 : rowEnglish row = petraLiteral) (hk2 : rowCompany row = c) :
    ∃ out, get_rooms phase1 [row] = .ok out ∧
      (out.filter petraPred).length = 1 ∧
      ∀ r ∈ out, petraPred r = true → r.phase2_rank = row.rank := by
  have hne : (buildRooms phase1).filter petraPred ≠ [] := by
    intro hnil
    rw [hnil] at h2
    simp at h2
  have hpop := popPetra_ok hne
  set rooms1 := (buildRooms phase1).eraseIdx ((buildRooms phase1).findIdx petraPred) with hr1
  have hcount1 : (rooms1.filter petraPred).length = 1 := by
    rw [hr1]
    have := filter_length_eraseIdx_findIdx petraPred (buildRooms phase1) hne
    omega
  have hsub : ∀ r ∈ rooms1, r ∈ buildRooms phase1 := fun r hr =>
    (List.eraseIdx_sublist (buildRooms phase1) _).subset hr
  have hc1 : ∀ r ∈ rooms1, petraPred r = true → r.company_name = c := fun r hr =>
    hc r (hsub r hr)
  have hcm : countMatches rooms1 petraLiteral c = 1 := by
    unfold countMatches
    have heq : rooms1.filter (fun r => r.room_name_english == petraLiteral && r.company_name == c)
        = rooms1.filter petraPred := by
      apply List.filter_congr
      intro r hr
      by_cases hp : petraPred r = true
      · have hcc : r.company_name = c := hc1 r hr hp
        have hp2 : (r.room_name_english == petraLiteral) = true := hp
        simp [petraPred, hp2, hcc]
      · have hp2 : (r.room_name_english == petraLiteral) = false := by
          cases hb : petraPred r
          · exact hb
          · exact absurd hb hp
        simp [petraPred, hp2]
    rw [heq, hcount1]
  refine ⟨rooms1.map (setRank (rowEnglish row) (rowCompany row) row.rank), ?_, ?_, ?_⟩
  · unfold get_rooms
    rw [hpop]
    show applyPhase2 rooms1 [row] = _
    rw [applyPhase2_cons_ok rooms1 row [] (by rw [hk1, hk2]; exact hcm)]
    exact applyPhase2_nil _
  · rw [show ((rooms1.map (setRank (rowEnglish row) (rowCompany row) row.rank)).filter
        petraPred).length = (rooms1.filter petraPred).length from
      filter_length_map rooms1 petraPred _ (fun r => by
        unfold petraPred
        rw [setRank_room_name_english])]
    exact hcount1
  · intro r hr hp
    obtain ⟨r0, hr0, rfl⟩ := List.mem_map.mp hr
    have hp0 : petraPred r0 = true := by
      unfold petraPred at hp ⊢
      rwa [setRank_room_name_english] at hp
    have hcc : r0.company_name = c := hc1 r0 hr0 hp0
    unfold petraPred at hp0
    unfold setRank
    rw [if_pos (by rw [hk1, hk2, hcc]; simp [hp0])]

/-- The documented organizer suffix layout: everything from the
separator before "Escape Stories" up to the opening parenthesis of the
location. -/
def escSuffixLit : PyStr := " - Escape Stories - Live Escape Game Wuppertal (".data

/-- A composite string of the organizer-exception shape: a name, the
Wuppertal organizer (which contains the separator), a parenthesized
location. -/
def escLine (n loc : PyStr) : PyStr := n ++ (escSuffixLit ++ (loc ++ ")".data))

/-- C8 counterexample: the composite string
"Escape - Escape Stories - Live Escape Game Wuppertal (Wuppertal)"
contains the documented organizer-with-separator literal, yet the
splitter does not return the full organizer name: the name portion
"Escape" recurs inside the organizer and `replace` deletes every
occurrence, so the organizer comes out as "Stories - Live  Game
Wuppertal". -/
theorem C8_exception_counterexample :
    containsSub "Escape - Escape Stories - Live Escape Game Wuppertal (Wuppertal)".data
      escLiteral = true ∧
    (parse_name "Escape - Escape Stories - Live Escape Game Wuppertal (Wuppertal)".data).2.2.1 ≠
      "Escape Stories - Live Escape Game Wuppertal".data ∧
    (parse_name "Escape - Escape Stories - Live Escape Game Wuppertal (Wuppertal)".data).2.2.1 =
      "Stories - Live  Game Wuppertal".data := by
  refine ⟨by decide, by decide, by decide⟩

/-- C8 amended: for every composite string of the shape
name ++ " - Escape Stories - Live Escape Game Wuppertal (" ++ loc ++ ")"
in which the separator pattern " - Escape Stories" first occurs right
after the name, the name portion does not recur in the remainder of the
string, the name contains no bracket and the string no override literal
or pre-normalization marker, and the location contains no parentheses,
the splitter takes the name portion as everything before the separator
pattern and returns the full organizer name
"Escape Stories - Live Escape Game Wuppertal" (with its embedded
separator) and the parenthesized location, without truncating the
name. -/
theorem C8_exception_amended (n loc : PyStr)
    (h1 : containsSub ((n ++ escSep).dropLast) escSep = false)
    (h2 : containsSub (escSuffixLit ++ (loc ++ ")".data)) n = false)
    (h3 : containsSub n "[".data = false)
    (h4 : containsSub (escLine n loc) petraLiteral = false)
    (h5 : containsSub (escLine n loc) "&amp;".data = false)
    (h6 : containsSub (escLine n loc) newMarker = false)
    (h7 : charIn '(' loc = false)
    (h8 : charIn ')' loc = false) :
    parse_name (escLine n loc) =
      (n, none, "Escape Stories - Live Escape Game Wuppertal".data, loc) := by
  have hnne : n ≠ [] := by
    intro he
    subst he
    rw [containsSub_nil_needle] at h2
    simp at h2
  -- the `&amp;` and novelty-marker replacements leave the line unchanged
  have hA : pyReplace (pyReplace (escLine n loc) "&amp;".data "&".data) newMarker [] =
      escLine n loc := by
    rw [pyReplace_no_occurrence _ h5, pyReplace_no_occurrence _ h6]
  -- the organizer literal occurs in the line
  have hB : containsSub (escLine n loc) escLiteral = true := by
    refine containsSub_iff.mpr ⟨n ++ " ".data, " (".data ++ (loc ++ ")".data), ?_⟩
    rw [show escLine n loc = n ++ ((" ".data ++ (escLiteral ++ " (".data)) ++ (loc ++ ")".data))
      from by rw [show (" ".data ++ (escLiteral ++ " (".data)) = escSuffixLit from by decide]; rfl]
    simp [List.append_assoc]
  -- splitting at " - Escape Stories" isolates the name portion
  have hC : pySplit escSep (escLine n loc) =
      n :: pySplit escSep (" - Live Escape Game Wuppertal (".data ++ (loc ++ ")".data)) := by
    rw [show escLine n loc =
        n ++ (escSep ++ (" - Live Escape Game Wuppertal (".data ++ (loc ++ ")".data)))
      from by
        rw [show escSep ++ (" - Live Escape Game Wuppertal (".data ++ (loc ++ ")".data)) =
            escSuffixLit ++ (loc ++ ")".data)
          from by rw [show escSuffixLit = escSep ++ " - Live Escape Game Wuppertal (".data
            from by decide]; simp [List.append_assoc]]
        rfl]
    exact pySplit_append_sep (by decide) n _
      (no_early_occurrence n _ h1)
  -- the name portion has no bracket
  have hD : pySplit "[".data n = [n] := pySplit_no_occurrence h3
  -- removing the name portion leaves the organizer-location suffix
  have hE : pyReplace (escLine n loc) n [] = escSuffixLit ++ (loc ++ ")".data) := by
    rw [pyReplace, if_neg hnne]
    have hsplit : pySplit n (escLine n loc) = [[], escSuffixLit ++ (loc ++ ")".data)] := by
      rw [show escLine n loc = [] ++ (n ++ (escSuffixLit ++ (loc ++ ")".data))) from rfl]
      rw [pySplit_append_sep hnne [] (escSuffixLit ++ (loc ++ ")".data))
        (by intro i hi; simp at hi)]
      rw [pySplit_no_occurrence h2]
    rw [hsplit]
    show [] ++ [] ++ (escSuffixLit ++ (loc ++ ")".data)) = escSuffixLit ++ (loc ++ ")".data)
    rfl
  -- stripping spaces and dashes from the left exposes the organizer
  have hF : pyLstrip (escSuffixLit ++ (loc ++ ")".data)) dashSep =
      "Escape Stories - Live Escape Game Wuppertal (".data ++ (loc ++ ")".data) := by
    show List.dropWhile _ (escSuffixLit ++ (loc ++ ")".data)) = _
    rw [dropWhile_append_of_ne_nil _ escSuffixLit (loc ++ ")".data) (by decide)]
    rw [show List.dropWhile (fun c => charIn c dashSep) escSuffixLit =
        "Escape Stories - Live Escape Game Wuppertal (".data from by decide]
  -- the last parenthesized group is the location
  have hG1 : pySplit "(".data
      ("Escape Stories - Live Escape Game Wuppertal (".data ++ (loc ++ ")".data)) =
      ["Escape Stories - Live Escape Game Wuppertal ".data, loc ++ ")".data] := by
    rw [show "Escape Stories - Live Escape Game Wuppertal (".data ++ (loc ++ ")".data) =
        "Escape Stories - Live Escape Game Wuppertal ".data ++
          ("(".data ++ (loc ++ ")".data)) from by
      rw [show "Escape Stories - Live Escape Game Wuppertal (".data =
          "Escape Stories - Live Escape Game Wuppertal ".data ++ "(".data from by decide]
      simp [List.append_assoc]]
    rw [pySplit_append_sep (by decide) "Escape Stories - Live Escape Game Wuppertal ".data
      (loc ++ ")".data)
      (no_early_occ_head "Escape Stories - Live Escape Game Wuppertal ".data (loc ++ ")".data)
        (by decide))]
    rw [pySplit_no_occurrence (show containsSub (loc ++ ")".data) "(".data = false from by
      cases hb : containsSub (loc ++ ")".data) "(".data
      · rfl
      · exfalso
        have : '(' ∈ loc ++ ")".data := containsSub_singleton.mp hb
        rcases List.mem_append.mp this with hin | hin
        · exact (charIn_eq_false.mp h7) hin
        · simp at hin)]
  have hG2 : pyRstrip (loc ++ ")".data) ")".data = loc := by
    unfold pyRstrip
    rw [show (loc ++ ")".data).reverse = ')' :: loc.reverse from by simp]
    rw [List.dropWhile_cons, if_pos (by decide)]
    rw [dropWhile_eq_self_of_all _ loc.reverse (by
      intro c hc
      have hcl : c ∈ loc := List.mem_reverse.mp hc
      have : c ≠ ')' := by
        intro he
        subst he
        exact (charIn_eq_false.mp h8) hcl
      simp [charIn, this]
      intro he
      exact absurd he.symm this)]
    exact List.reverse_reverse loc
  -- removing the parenthesized location leaves the organizer
  have hH : pyReplace ("Escape Stories - Live Escape Game Wuppertal (".data ++ (loc ++ ")".data))
      ('(' :: (loc ++ ")".data)) [] = "Escape Stories - Live Escape Game Wuppertal ".data := by
    rw [pyReplace, if_neg (by simp)]
    have hsplit : pySplit ('(' :: (loc ++ ")".data))
        ("Escape Stories - Live Escape Game Wuppertal (".data ++ (loc ++ ")".data)) =
        ["Escape Stories - Live Escape Game Wuppertal ".data, []] := by
      rw [show "Escape Stories - Live Escape Game Wuppertal (".data ++ (loc ++ ")".data) =
          "Escape Stories - Live Escape Game Wuppertal ".data ++
            (('(' :: (loc ++ ")".data)) ++ []) from by
        rw [show "Escape Stories - Live Escape Game Wuppertal (".data =
            "Escape Stories - Live Escape Game Wuppertal ".data ++ "(".data from by decide]
        simp [List.append_assoc]]
      rw [pySplit_append_sep (by simp) "Escape Stories - Live Escape Game Wuppertal ".data []
        (no_early_occ_head "Escape Stories - Live Escape Game Wuppertal ".data [] (by decide))]
      rw [pySplit_nil]
    rw [hsplit]
    show "Escape Stories - Live Escape Game Wuppertal ".data ++ [] ++ [] = _
    simp
  -- assemble
  have hlast : ∀ (a b : PyStr), ([a, b] : List PyStr).getLastD [] = b := by
    intro a b
    rfl
  have hstrip : pyStrip "Escape Stories - Live Escape Game Wuppertal ".data " ".data =
      "Escape Stories - Live Escape Game Wuppertal".data := by decide
  simp only [parse_name, hA, hB, hC, List.headD_cons, h3, h4, hD, hE, hF, hG1, hlast, hG2,
    Bool.false_eq_true, if_false, if_true, eq_self_iff_true]
  refine congrArg (fun z => (n, (none : Option PyStr), z, loc)) ?_
  show pyStrip (pyReplace
      ("Escape Stories - Live Escape Game Wuppertal (".data ++ (loc ++ ")".data))
      ('(' :: (loc ++ ")".data)) []) " ".data =
    "Escape Stories - Live Escape Game Wuppertal".data
  rw [hH, hstrip]

theorem C8_exception_witness :
    parse_name (escLine "The Room".data "Wuppertal".data) =
      ("The Room".data, none, "Escape Stories - Live Escape Game Wuppertal".data,
        "Wuppertal".data) :=
  C8_exception_amended "The Room".data "Wuppertal".data (by decide) (by decide) (by decide)
    (by decide) (by decide) (by decide) (by decide) (by decide)

theorem C7_duplicate_collapse_witness :
    ∃ out, get_rooms c7wPhase1 [petraRow] = .ok out ∧
      (out.filter petraPred).length = 1 ∧
      ∀ r ∈ out, petraPred r = true → r.phase2_rank = petraRow.rank :=
  C7_duplicate_collapse_amended c7wPhase1 petraRow "DubiousOrg".data
    (by decide) (by decide) (by decide) (by decide)

end EscapeExplorer
